import Mathlib

/-!
Verification development for the Quantum-Wallet account-derivation and
transaction-submission engine (`src/utils/wallet.ts`).

The `WalletManager` class is embedded shallowly: its mutable fields
(`accounts`, `transactions`) become an explicit `ManagerState` threaded
through the operations, thrown JS `Error`s become an inductive
`WalletError`, and the external collaborators (bip39, bip32, ethers.js,
@solana/web3.js, the two RPC networks, `Date.now`) become records of
abstract functions (`CryptoEnv`, `NetEnv`) over which every theorem
quantifies.  JS `number` arithmetic on parsed amounts is modelled by the
exact rational value it denotes, represented as a scaled integer
(`JsNumber`), and JS string/regex operations are translated to explicit
character-list computations.
-/

namespace QuantumWallet

/-- The two supported chains (the `blockchain` union type in `wallet.ts`). -/
inductive Blockchain
  | ethereum
  | solana
deriving DecidableEq, Repr

/-- String tag of a chain, as interpolated by the TypeScript template
literals (`"ethereum"` / `"solana"`). -/
def Blockchain.str : Blockchain → String
  | .ethereum => "ethereum"
  | .solana => "solana"

/-- A byte, as stored in a `Buffer` / `Uint8Array`. -/
abbrev Byte := Fin 256

/-- A byte string (`Buffer` / `Uint8Array` contents). -/
abbrev Bytes := List Byte

/-- The `WalletAccount` interface of `wallet.ts` (the TS field `from` of
`Transaction` is renamed `fromAddr` below because `from` is a Lean keyword;
all other field names are kept). -/
structure WalletAccount where
  id : String
  name : String
  blockchain : Blockchain
  address : String
  privateKey : String
  publicKey : String
  balance : String
  mnemonic : String
  derivationPath : String
deriving DecidableEq, Repr

/-- Status of a `Transaction` (`"pending" | "confirmed" | "failed"`). -/
inductive TxStatus
  | pending
  | confirmed
  | failed
deriving DecidableEq, Repr

/-- The `Transaction` interface of `wallet.ts`; `fromAddr` and `toAddr`
embed the TS fields `from` and `to` (both Lean keywords), and the optional
`hash?` field becomes `Option String`. -/
structure Transaction where
  id : String
  fromAddr : String
  toAddr : String
  amount : String
  blockchain : Blockchain
  status : TxStatus
  timestamp : Nat
  hash : Option String
deriving DecidableEq, Repr

/-- The mutable state of the `WalletManager` singleton: its `accounts` and
`transactions` arrays. -/
structure ManagerState where
  accounts : List WalletAccount
  transactions : List Transaction
deriving DecidableEq, Repr

/-- The empty initial state of a freshly constructed `WalletManager`. -/
def emptyState : ManagerState := ⟨[], []⟩

/-- The JS `Error`s thrown by `wallet.ts`, identified by throw site.  The
constructor `solanaKeypairFailure` models the inner `catch` of the Solana
send path, which re-throws any error raised between keypair reconstruction
and confirmation wrapped in a new `Error` whose message is
`Failed to create Solana keypair: <original message>`. -/
inductive WalletError
  | duplicateIndex (blockchain : Blockchain) (accountIndex : Nat)
  | duplicateName (name : String) (blockchain : Blockchain)
  | invalidSeedLength
  | invalidEthereumKey
  | invalidParams
  | invalidEthereumAddressFormat
  | invalidSolanaAddressFormat
  | invalidPubkey
  | insufficientBalance
  | keyIntegrity
  | invalidAmount
  | networkFailure
  | solanaKeypairFailure (cause : WalletError)
deriving DecidableEq, Repr

/- § String and hex helpers -/

/-- The apostrophe character used in BIP-44 derivation paths. -/
def tick : String := String.singleton (Char.ofNat 39)

/-- The Ethereum derivation-path template of `createAccount`
(`m/44h/60h/0h/0/index`, writing `h` for the hardening apostrophe). -/
def ethDerivationPath (accountIndex : Nat) : String :=
  "m/44" ++ tick ++ "/60" ++ tick ++ "/0" ++ tick ++ "/0/" ++ Nat.repr accountIndex

/-- The Solana derivation-path template of `createAccount`
(`m/44h/501h/0h/0h/indexh`). -/
def solDerivationPath (accountIndex : Nat) : String :=
  "m/44" ++ tick ++ "/501" ++ tick ++ "/0" ++ tick ++ "/0" ++ tick ++ "/" ++
    Nat.repr accountIndex ++ tick

/-- The account id produced by the template literal
`"<blockchain>-<accountIndex>"` in `createAccount`. -/
def mkId (b : Blockchain) (accountIndex : Nat) : String :=
  b.str ++ "-" ++ Nat.repr accountIndex

/-- Lower-case hex digit for a value below 16 (`Buffer.toString("hex")`). -/
def hexDigitChar (n : Nat) : Char :=
  if n < 10 then Char.ofNat (48 + n) else Char.ofNat (87 + n)

/-- Two-character lower-case hex encoding of one byte. -/
def byteToHex (b : Byte) : List Char :=
  [hexDigitChar (b.val / 16), hexDigitChar (b.val % 16)]

/-- Model of `Buffer.from(bytes).toString("hex")`: lower-case hex string. -/
def hexOfBytes (bs : Bytes) : String :=
  String.mk (bs.map byteToHex).flatten

/-- Value of a hex digit character (accepting the `0-9a-fA-F` range that
`Buffer.from(s, "hex")` accepts), or `none` for a non-hex character. -/
def hexCharVal (c : Char) : Option (Fin 16) :=
  if h : 48 ≤ c.toNat ∧ c.toNat ≤ 57 then some ⟨c.toNat - 48, by omega⟩
  else if h : 97 ≤ c.toNat ∧ c.toNat ≤ 102 then some ⟨c.toNat - 87, by omega⟩
  else if h : 65 ≤ c.toNat ∧ c.toNat ≤ 70 then some ⟨c.toNat - 55, by omega⟩
  else none

/-- Decode hex character pairs into bytes, stopping (as Node's
`Buffer.from(s, "hex")` does) at the first invalid pair or odd tail. -/
def decodeHexPairs : List Char → Bytes
  | c1 :: c2 :: rest =>
    match hexCharVal c1, hexCharVal c2 with
    | some h, some l =>
      ⟨16 * h.val + l.val, by have hh := h.isLt; have hl := l.isLt; omega⟩ ::
        decodeHexPairs rest
    | _, _ => []
  | _ => []

/-- Model of `Buffer.from(s, "hex")` (and the `Uint8Array.from` around it in
the Solana send path). -/
def bufferFromHex (s : String) : Bytes :=
  decodeHexPairs s.data

/-- Decimal digit test, as in the character class `[0-9]`. -/
def isDigitChar (c : Char) : Bool :=
  48 ≤ c.toNat && c.toNat ≤ 57

/-- Hex character test, as in the regex character class `[a-fA-F0-9]`. -/
def isHexChar (c : Char) : Bool :=
  isDigitChar c || (97 ≤ c.toNat && c.toNat ≤ 102) || (65 ≤ c.toNat && c.toNat ≤ 70)

/-- Translation of `isValidEthereumAddress`, i.e. of the regex test
`0x` followed by exactly forty characters of the class `[a-fA-F0-9]`,
anchored at both ends. -/
def isValidEthereumAddress (s : String) : Bool :=
  match s.data with
  | '0' :: 'x' :: rest => rest.length == 40 && rest.all isHexChar
  | _ => false

/-- Numeric value of a list of decimal digit characters. -/
def digitsVal (cs : List Char) : Nat :=
  cs.foldl (fun acc c => 10 * acc + (c.toNat - 48)) 0

/- § Exact model of JS number values produced by parseFloat -/

/-- Exact value of a JS number obtained from `parseFloat` on a plain decimal
literal: the rational `num / 10 ^ scale`, kept as a scaled integer so that
every comparison the wallet performs on it is exact integer arithmetic.
(The runtime evaluates those comparisons in IEEE-754 doubles; that agrees
with the exact rational comparison modelled here except when the balance
lies within a few ulps of the converted amount.) -/
structure JsNumber where
  num : Int
  scale : Nat
deriving DecidableEq, Repr

/-- Model of JavaScript `parseFloat` restricted to the shapes the wallet UI
can produce: optional leading spaces, optional sign, decimal digits with an
optional fractional part, parsed as a longest prefix (exponents and
`Infinity` are not modelled).  Returns `none` exactly where `parseFloat`
returns `NaN`. -/
def jsParseFloat (s : String) : Option JsNumber :=
  let cs := s.data.dropWhile (fun c => c == ' ')
  let signAndRest : Int × List Char :=
    match cs with
    | c :: rest =>
      if c == '-' then (-1, rest) else if c == '+' then (1, rest) else (1, cs)
    | [] => (1, [])
  let sgn := signAndRest.1
  let cs1 := signAndRest.2
  let intDigits := cs1.takeWhile isDigitChar
  let rest := cs1.dropWhile isDigitChar
  let fracDigits : List Char :=
    match rest with
    | c :: r => if c == '.' then r.takeWhile isDigitChar else []
    | [] => []
  if intDigits.isEmpty && fracDigits.isEmpty then none
  else
    some ⟨sgn * ((digitsVal intDigits : Int) * (10 : Int) ^ fracDigits.length +
      (digitsVal fracDigits : Int)), fracDigits.length⟩

/-- The boolean `parseFloat(amount) <= 0` of the pre-flight validation:
`NaN` (modelled as `none`) compares `false`, and `num / 10 ^ scale ≤ 0`
holds exactly when `num ≤ 0`. -/
def parseFloatLeZero (amount : String) : Bool :=
  match jsParseFloat amount with
  | some q => decide (q.num ≤ 0)
  | none => false

/-- Exact value of `x * LAMPORTS_PER_SOL` for a parsed amount `x`
(`LAMPORTS_PER_SOL = 10 ^ 9`). -/
def JsNumber.timesLamports (x : JsNumber) : JsNumber :=
  ⟨x.num * (10 : Int) ^ 9, x.scale⟩

/-- Exact model of the JS comparison `balance < x` between an integer
lamport balance and a parsed-amount value `x = num / 10 ^ scale`. -/
def JsNumber.natLt (balance : Nat) (x : JsNumber) : Bool :=
  decide ((balance : Int) * (10 : Int) ^ x.scale < x.num)

/-- Exact model of `Math.floor(x)` for `x = num / 10 ^ scale`. -/
def JsNumber.floor (x : JsNumber) : Int :=
  Int.fdiv x.num ((10 : Int) ^ x.scale)

/-- Model of `ethers.parseEther` (that is, `parseUnits(value, 18)`): the
whole string must match optional sign, then decimal digits with an optional
fractional part of at most 18 digits and at least one digit in total;
the result is the value in wei.  `none` models the throw on a malformed
amount. -/
def parseEther (s : String) : Option Int :=
  let signAndRest : Int × List Char :=
    match s.data with
    | c :: rest => if c == '-' then (-1, rest) else (1, s.data)
    | [] => (1, [])
  let sgn := signAndRest.1
  let cs := signAndRest.2
  let intDigits := cs.takeWhile isDigitChar
  let rest := cs.dropWhile isDigitChar
  match rest with
  | [] =>
    if intDigits.isEmpty then none
    else some (sgn * (digitsVal intDigits : Int) * (10 : Int) ^ 18)
  | c :: fracPart =>
    if c == '.' && fracPart.all isDigitChar && fracPart.length ≤ 18 &&
        !(intDigits.isEmpty && fracPart.isEmpty) then
      some (sgn * ((digitsVal intDigits : Int) * (10 : Int) ^ 18 +
        (digitsVal fracPart : Int) * (10 : Int) ^ (18 - fracPart.length)))
    else none

/- § External collaborators -/

/-- The cryptographic collaborators of `wallet.ts`, abstracted as pure
functions: `bip39.mnemonicToSeed`, BIP32 `derivePath(...).privateKey`,
the `ethers.Wallet` constructor (key acceptance plus derived address),
`Keypair.fromSeed(...).publicKey.toString()`, and `new PublicKey(s)`
parseability.  Every theorem quantifies over an arbitrary such record. -/
structure CryptoEnv where
  mnemonicToSeed : String → Bytes
  derivePriv : Bytes → String → Bytes
  ethKeyOk : String → Bool
  ethAddressOf : String → String
  solPubkeyOf : Bytes → String
  solParse : String → Bool

/-- The network collaborators (Sepolia RPC provider, Solana devnet
connection) and `Date.now`, abstracted as pure functions; `none` models a
thrown network error, and `ethWait` / `solConfirm` return the
receipt-or-null / error-or-null observations of the two confirmation
calls. -/
structure NetEnv where
  ethGetBalance : String → Option Nat
  ethSend : String → Int → Option String
  ethWait : String → Option (Option Unit)
  solGetBalance : String → Option Nat
  solLatestBlockhash : Option String
  solSend : String → String → Int → Option String
  solConfirm : String → Option (Option Unit)
  now : Nat

/- § WalletManager operations -/

/-- Translation of `WalletManager.createAccount`.  The two duplicate
checks precede any derivation; on success the account is pushed onto the
accounts array.  The impossible-in-practice throws of the chain libraries
(an out-of-range secp256k1 key rejected by the `ethers.Wallet` constructor,
a derived seed that is not 32 bytes rejected by `Keypair.fromSeed`) are
kept as explicit error outcomes. -/
def createAccount (env : CryptoEnv) (s : ManagerState)
    (name : String) (blockchain : Blockchain) (mnemonic : String)
    (accountIndex : Nat) :
    Except WalletError WalletAccount × ManagerState :=
  if (s.accounts.find? (fun acc =>
      decide (acc.blockchain = blockchain) &&
      decide (acc.id = mkId blockchain accountIndex))).isSome then
    (.error (.duplicateIndex blockchain accountIndex), s)
  else if (s.accounts.find? (fun acc =>
      decide (acc.blockchain = blockchain) && decide (acc.name = name))).isSome then
    (.error (.duplicateName name blockchain), s)
  else
    let seed := env.mnemonicToSeed mnemonic
    match blockchain with
    | .ethereum =>
      let derivationPath := ethDerivationPath accountIndex
      let priv := env.derivePriv seed derivationPath
      let privateKey := hexOfBytes priv
      if env.ethKeyOk privateKey then
        let address := env.ethAddressOf privateKey
        let account : WalletAccount :=
          { id := mkId .ethereum accountIndex, name := name,
            blockchain := .ethereum, address := address,
            privateKey := privateKey, publicKey := address, balance := "0",
            mnemonic := mnemonic, derivationPath := derivationPath }
        (.ok account, { s with accounts := s.accounts ++ [account] })
      else
        (.error .invalidEthereumKey, s)
    | .solana =>
      let derivationPath := solDerivationPath accountIndex
      let priv := env.derivePriv seed derivationPath
      if priv.length = 32 then
        let address := env.solPubkeyOf priv
        let account : WalletAccount :=
          { id := mkId .solana accountIndex, name := name,
            blockchain := .solana, address := address,
            privateKey := hexOfBytes priv, publicKey := address,
            balance := "0", mnemonic := mnemonic,
            derivationPath := derivationPath }
        (.ok account, { s with accounts := s.accounts ++ [account] })
      else
        (.error .invalidSeedLength, s)

/-- Translation of `WalletManager.getAccount`. -/
def getAccount (s : ManagerState) (id : String) : Option WalletAccount :=
  s.accounts.find? (fun account => decide (account.id = id))

/-- Translation of `WalletManager.getTransactions`.  The argument is
optional in TS; `if (accountId)` is falsy both for an absent argument and
for the empty string. -/
def getTransactions (s : ManagerState) (accountId : Option String) :
    List Transaction :=
  match accountId with
  | some aid =>
    if aid = "" then s.transactions
    else
      match getAccount s aid with
      | none => []
      | some account =>
        s.transactions.filter (fun tx => decide (tx.fromAddr = account.address))
  | none => s.transactions

/-- Drop trailing zero characters (used by both balance formatters). -/
def trimTrailingZeros (cs : List Char) : List Char :=
  (cs.reverse.dropWhile (fun c => c == '0')).reverse

/-- Left-pad a digit string with zeros to the given width. -/
def padLeftZeros (cs : List Char) (n : Nat) : List Char :=
  List.replicate (n - cs.length) '0' ++ cs

/-- Model of `ethers.formatEther`: the wei balance divided by `10 ^ 18`,
rendered as a decimal string with trailing fraction zeros trimmed and at
least one fraction digit kept. -/
def formatEther (wei : Nat) : String :=
  let whole := wei / 10 ^ 18
  let frac := wei % 10 ^ 18
  let fracChars := trimTrailingZeros (padLeftZeros (Nat.repr frac).data 18)
  Nat.repr whole ++ "." ++ (if fracChars.isEmpty then "0" else String.mk fracChars)

/-- Model of `(balance / LAMPORTS_PER_SOL).toString()`: the exact decimal
value `lamports / 10 ^ 9` rendered by the ECMA-262 Number-to-String
algorithm.  Writing `s` for the significant digits of the value (the
digits of `lamports` with trailing zeros stripped), `k` for their count
and `n` for the position of the decimal point (`digits(lamports) - 9`),
the runtime uses positional notation when `-6 < n ≤ 21` — `s` padded with
`n - k` zeros for `n ≥ k`, a point inside `s` for `0 < n < k`, `0.` plus
`-n` leading zeros for `n ≤ 0` — and exponential notation such as `1e-7`
or `9.99e-7` otherwise.  This reproduces the double computation exactly
whenever the value has at most 15 significant digits, in particular for
every `lamports < 10 ^ 15`: both division operands are then exactly
representable, IEEE division is correctly rounded, and decimals with at
most 15 significant digits are separated by more than one ulp, so the
shortest digit string that round-trips through the resulting double — the
string the runtime prints — is the exact value's digit string.  Above
`10 ^ 15` lamports shortest-round-trip printing can drop final digits;
the balance-oracle theorem states the Solana success case only below that
bound. -/
def formatSolBalance (lamports : Nat) : String :=
  if lamports = 0 then "0"
  else
    let allDigits := (Nat.repr lamports).data
    let t := allDigits.length
    let ds := trimTrailingZeros allDigits
    let k := ds.length
    if 4 ≤ t ∧ t ≤ 30 then
      if t ≥ k + 9 then String.mk (ds ++ List.replicate (t - 9 - k) '0')
      else if t > 9 then String.mk (ds.take (t - 9) ++ '.' :: ds.drop (t - 9))
      else String.mk ('0' :: '.' :: (List.replicate (9 - t) '0' ++ ds))
    else
      (match ds with
      | [] => "0"
      | d :: rest =>
        String.mk (d :: (if rest.isEmpty then [] else '.' :: rest))) ++
      (if t > 9 then "e+" ++ Nat.repr (t - 10) else "e-" ++ Nat.repr (10 - t))

/-- Translation of `WalletManager.getBalance`: queries the chain service
and converts to the human unit; the surrounding `try`/`catch` turns every
failure — an unparseable Solana address in `new PublicKey` or a failed
network query — into the string `"0"`. -/
def getBalance (env : CryptoEnv) (net : NetEnv) (account : WalletAccount) :
    String :=
  match account.blockchain with
  | .ethereum =>
    match net.ethGetBalance account.address with
    | some wei => formatEther wei
    | none => "0"
  | .solana =>
    if env.solParse account.address then
      match net.solGetBalance account.address with
      | some lamports => formatSolBalance lamports
      | none => "0"
    else "0"

/-- The `Transaction` record constructed in pending status before the
`try` block of `sendTransaction` (`Date.now()` supplies both id and
timestamp). -/
def pendingTx (now : Nat) (fromAccount : WalletAccount)
    (toAddress amount : String) : Transaction :=
  { id := Nat.repr now, fromAddr := fromAccount.address, toAddr := toAddress,
    amount := amount, blockchain := fromAccount.blockchain,
    status := .pending, timestamp := now, hash := none }

/-- The outer `catch` of `sendTransaction`: mark the transaction failed,
push it onto the ledger, and re-throw. -/
def recordFailure (s : ManagerState) (t : Transaction) (e : WalletError) :
    Except WalletError Transaction × ManagerState :=
  (.error e, { s with transactions := s.transactions ++ [{ t with status := .failed }] })

/-- The success epilogue of `sendTransaction`: push the transaction onto
the ledger, then refresh the sender's cached balance through `getBalance`
(the in-place mutation of the aliased account object is modelled by
updating the registry entry with the same id). -/
def finishSend (env : CryptoEnv) (net : NetEnv) (s : ManagerState)
    (fromAccount : WalletAccount) (t : Transaction) :
    Except WalletError Transaction × ManagerState :=
  let newBalance := getBalance env net fromAccount
  (.ok t,
    { accounts := s.accounts.map (fun a =>
        if a.id = fromAccount.id then { a with balance := newBalance } else a),
      transactions := s.transactions ++ [t] })

/-- The Ethereum branch of the `try` block of `sendTransaction`: wallet
reconstruction, balance query, wei conversion, sufficiency check,
submission, eager hash recording, then blocking confirmation. -/
def ethereumSendBody (env : CryptoEnv) (net : NetEnv) (s : ManagerState)
    (fromAccount : WalletAccount) (toAddress amount : String)
    (t : Transaction) : Except WalletError Transaction × ManagerState :=
  if env.ethKeyOk fromAccount.privateKey then
    match net.ethGetBalance fromAccount.address with
    | none => recordFailure s t .networkFailure
    | some balance =>
      match parseEther amount with
      | none => recordFailure s t .invalidAmount
      | some amountWei =>
        if (balance : Int) < amountWei then
          recordFailure s t .insufficientBalance
        else
          match net.ethSend toAddress amountWei with
          | none => recordFailure s t .networkFailure
          | some h =>
            let t1 := { t with hash := some h }
            match net.ethWait h with
            | none => recordFailure s t1 .networkFailure
            | some receipt =>
              finishSend env net s fromAccount
                { t1 with status := if receipt.isSome then .confirmed else .failed }
  else
    recordFailure s t .invalidEthereumKey

/-- The Solana branch of the `try` block of `sendTransaction`: sender
pubkey parse, then the inner `try` (whose failures are re-thrown wrapped
as `solanaKeypairFailure`) covering keypair reconstruction from the stored
hex seed, the defensive address-integrity check, balance query, lamport
conversion and sufficiency check, transfer construction, blockhash fetch,
submission, eager signature recording, and confirmation. -/
def solanaSendBody (env : CryptoEnv) (net : NetEnv) (s : ManagerState)
    (fromAccount : WalletAccount) (toAddress amount : String)
    (t : Transaction) : Except WalletError Transaction × ManagerState :=
  if env.solParse fromAccount.address then
    let privateKeyBytes := bufferFromHex fromAccount.privateKey
    if privateKeyBytes.length = 32 then
      if env.solPubkeyOf privateKeyBytes = fromAccount.address then
        match net.solGetBalance fromAccount.address with
        | none => recordFailure s t (.solanaKeypairFailure .networkFailure)
        | some balance =>
          let lamports := (jsParseFloat amount).map JsNumber.timesLamports
          if (match lamports with
              | some l => JsNumber.natLt balance l
              | none => false) then
            recordFailure s t (.solanaKeypairFailure .insufficientBalance)
          else
            match lamports with
            | none => recordFailure s t (.solanaKeypairFailure .invalidAmount)
            | some l =>
              match net.solLatestBlockhash with
              | none => recordFailure s t (.solanaKeypairFailure .networkFailure)
              | some _ =>
                match net.solSend fromAccount.address toAddress l.floor with
                | none => recordFailure s t (.solanaKeypairFailure .networkFailure)
                | some sig =>
                  let t1 := { t with hash := some sig }
                  match net.solConfirm sig with
                  | none => recordFailure s t1 (.solanaKeypairFailure .networkFailure)
                  | some err =>
                    finishSend env net s fromAccount
                      { t1 with status := if err.isSome then .failed else .confirmed }
      else
        recordFailure s t (.solanaKeypairFailure .keyIntegrity)
    else
      recordFailure s t (.solanaKeypairFailure .invalidSeedLength)
  else
    recordFailure s t .invalidPubkey

/-- Translation of `WalletManager.sendTransaction`: chain-agnostic
pre-flight validation, chain-specific address-format validation, pending
record construction, then the chain-specific submission body. -/
def sendTransaction (env : CryptoEnv) (net : NetEnv) (s : ManagerState)
    (fromAccount : WalletAccount) (toAddress amount : String) :
    Except WalletError Transaction × ManagerState :=
  if toAddress = "" ∨ amount = "" ∨ parseFloatLeZero amount = true then
    (.error .invalidParams, s)
  else
    match fromAccount.blockchain with
    | .ethereum =>
      if isValidEthereumAddress toAddress then
        ethereumSendBody env net s fromAccount toAddress amount
          (pendingTx net.now fromAccount toAddress amount)
      else
        (.error .invalidEthereumAddressFormat, s)
    | .solana =>
      if env.solParse toAddress then
        solanaSendBody env net s fromAccount toAddress amount
          (pendingTx net.now fromAccount toAddress amount)
      else
        (.error .invalidSolanaAddressFormat, s)

end QuantumWallet

namespace QuantumWallet

/- § Helper lemmas about the string and hex models -/

/-- Appending strings appends their character data. -/
theorem strDataAppend (s t : String) : (s ++ t).data = s.data ++ t.data := by
  cases s; cases t; rfl

/-- Hex encoding of a digit decodes to itself. -/
theorem hexCharVal_hexDigitChar : ∀ n : Fin 16,
    hexCharVal (hexDigitChar n.val) = some n := by decide

/-- Decoding inverts the per-byte hex encoding. -/
theorem decodeHexPairs_encode (bs : Bytes) :
    decodeHexPairs (bs.map byteToHex).flatten = bs := by
  induction bs with
  | nil => rfl
  | cons b rest ih =>
    have hdiv : b.val / 16 < 16 := by have := b.isLt; omega
    have hmod : b.val % 16 < 16 := by have := b.isLt; omega
    have h1 := hexCharVal_hexDigitChar ⟨b.val / 16, hdiv⟩
    have h2 := hexCharVal_hexDigitChar ⟨b.val % 16, hmod⟩
    simp only [List.map_cons, List.flatten_cons, byteToHex, List.cons_append,
      List.nil_append, decodeHexPairs, h1, h2, List.cons.injEq]
    refine ⟨Fin.ext ?_, ih⟩
    show 16 * (b.val / 16) + b.val % 16 = b.val
    have := Nat.div_add_mod b.val 16
    omega

/-- Round trip of the `Buffer` hex codec: re-decoding a stored hex private
key recovers the original bytes. -/
theorem bufferFromHex_hexOfBytes (bs : Bytes) :
    bufferFromHex (hexOfBytes bs) = bs := by
  simpa [bufferFromHex, hexOfBytes] using decodeHexPairs_encode bs

/-- The first character of a generated Ethereum account id. -/
theorem mkId_eth_head (i : Nat) : (mkId .ethereum i).data.head? = some 'e' := rfl

/-- The first character of a generated Solana account id. -/
theorem mkId_sol_head (i : Nat) : (mkId .solana i).data.head? = some 's' := rfl

/-- Generated account ids determine the chain they mention. -/
theorem mkId_chain_inj {b bp : Blockchain} {i ip : Nat}
    (h : mkId b i = mkId bp ip) : b = bp := by
  cases b <;> cases bp <;> try rfl
  · have he := mkId_eth_head i
    rw [h, mkId_sol_head] at he
    exact absurd he (by simp)
  · have hs := mkId_sol_head i
    rw [h, mkId_eth_head] at hs
    exact absurd hs (by simp)

/- § Derived key material as a function of (mnemonic, chain, index) -/

/-- The fixed derivation-path template of a chain, instantiated at an
index. -/
def derivationPathOf (b : Blockchain) (accountIndex : Nat) : String :=
  match b with
  | .ethereum => ethDerivationPath accountIndex
  | .solana => solDerivationPath accountIndex

/-- The raw private-key bytes `createAccount` derives for the given
mnemonic, chain and index — a value independent of the registry state. -/
def derivedPrivBytes (env : CryptoEnv) (b : Blockchain) (mnemonic : String)
    (accountIndex : Nat) : Bytes :=
  env.derivePriv (env.mnemonicToSeed mnemonic) (derivationPathOf b accountIndex)

/-- The hex-encoded private key `createAccount` stores. -/
def derivedPrivateKeyHex (env : CryptoEnv) (b : Blockchain) (mnemonic : String)
    (accountIndex : Nat) : String :=
  hexOfBytes (derivedPrivBytes env b mnemonic accountIndex)

/-- The chain-native address `createAccount` derives. -/
def derivedAddress (env : CryptoEnv) (b : Blockchain) (mnemonic : String)
    (accountIndex : Nat) : String :=
  match b with
  | .ethereum => env.ethAddressOf (derivedPrivateKeyHex env .ethereum mnemonic accountIndex)
  | .solana => env.solPubkeyOf (derivedPrivBytes env .solana mnemonic accountIndex)

/-- The full account record a successful `createAccount` returns. -/
def derivedAccount (env : CryptoEnv) (name : String) (b : Blockchain)
    (mnemonic : String) (accountIndex : Nat) : WalletAccount :=
  { id := mkId b accountIndex, name := name, blockchain := b,
    address := derivedAddress env b mnemonic accountIndex,
    privateKey := derivedPrivateKeyHex env b mnemonic accountIndex,
    publicKey := derivedAddress env b mnemonic accountIndex, balance := "0",
    mnemonic := mnemonic, derivationPath := derivationPathOf b accountIndex }

/-- Anatomy of a successful `createAccount`: the returned account is the
derived record — a function of the environment, name, chain, mnemonic and
index only — and the new state appends exactly that account. -/
theorem createAccount_ok_spec (env : CryptoEnv) (s : ManagerState)
    (name : String) (b : Blockchain) (mnemonic : String) (accountIndex : Nat)
    (a : WalletAccount) (s2 : ManagerState)
    (h : createAccount env s name b mnemonic accountIndex = (.ok a, s2)) :
    a = derivedAccount env name b mnemonic accountIndex ∧
    s2 = { s with accounts := s.accounts ++ [a] } := by
  cases b
  case ethereum =>
    simp only [createAccount] at h
    split at h
    · exact absurd h (by simp)
    split at h
    · exact absurd h (by simp)
    split at h
    · simp only [Prod.mk.injEq, Except.ok.injEq] at h
      obtain ⟨ha, hs⟩ := h
      subst ha
      exact ⟨rfl, hs.symm⟩
    · exact absurd h (by simp)
  case solana =>
    simp only [createAccount] at h
    split at h
    · exact absurd h (by simp)
    split at h
    · exact absurd h (by simp)
    split at h
    · simp only [Prod.mk.injEq, Except.ok.injEq] at h
      obtain ⟨ha, hs⟩ := h
      subst ha
      exact ⟨rfl, hs.symm⟩
    · exact absurd h (by simp)

end QuantumWallet

namespace QuantumWallet

/- § Concrete sample environments used by the evaluation witnesses -/

/-- A concrete instantiation of the cryptographic collaborators, used to
evaluate the model on closed inputs. -/
def testCryptoEnv : CryptoEnv :=
  { mnemonicToSeed := fun _ => List.replicate 64 (1 : Byte),
    derivePriv := fun _ _ => List.replicate 32 (0 : Byte),
    ethKeyOk := fun _ => true,
    ethAddressOf := fun _ => "0x1111111111111111111111111111111111111111",
    solPubkeyOf := fun _ => "So1anaPubKey11111111111111111111",
    solParse := fun _ => true }

/-- A concrete instantiation of the network collaborators, used to evaluate
the model on closed inputs. -/
def testNetEnv : NetEnv :=
  { ethGetBalance := fun _ => some 5,
    ethSend := fun _ _ => some "0xdeadbeef",
    ethWait := fun _ => some (some ()),
    solGetBalance := fun _ => some 5,
    solLatestBlockhash := some "blockhash1",
    solSend := fun _ _ _ => some "sig1",
    solConfirm := fun _ => some none,
    now := 1700000000000 }

/- § C1: derivation determinism -/

/-- C1: derivation is deterministic — two successful `createAccount`
invocations with the same mnemonic, chain and derivation index return
accounts with identical address and identical private key, whatever the
registry states and account names were; the derived key material is a
function of `(mnemonic, chain, index)` (and the fixed cryptographic
collaborators) only. -/
theorem createAccount_deterministic (env : CryptoEnv) (s1 s2 : ManagerState)
    (name1 name2 mnemonic : String) (blockchain : Blockchain)
    (accountIndex : Nat) (a1 a2 : WalletAccount) (t1 t2 : ManagerState)
    (h1 : createAccount env s1 name1 blockchain mnemonic accountIndex = (.ok a1, t1))
    (h2 : createAccount env s2 name2 blockchain mnemonic accountIndex = (.ok a2, t2)) :
    a1.address = a2.address ∧ a1.privateKey = a2.privateKey := by
  obtain ⟨e1, -⟩ := createAccount_ok_spec _ _ _ _ _ _ _ _ h1
  obtain ⟨e2, -⟩ := createAccount_ok_spec _ _ _ _ _ _ _ _ h2
  subst e1
  subst e2
  exact ⟨rfl, rfl⟩

/-- Evaluation witness for `createAccount_deterministic`: two concrete
successful creations (different names, different registries) at the same
`(mnemonic, chain, index)` agree on address and private key. -/
theorem createAccount_deterministic_witness :
    (derivedAccount testCryptoEnv "A" .ethereum "abandon" 0).address =
      (derivedAccount testCryptoEnv "B" .ethereum "abandon" 0).address ∧
    (derivedAccount testCryptoEnv "A" .ethereum "abandon" 0).privateKey =
      (derivedAccount testCryptoEnv "B" .ethereum "abandon" 0).privateKey :=
  createAccount_deterministic testCryptoEnv emptyState emptyState "A" "B"
    "abandon" .ethereum 0
    (derivedAccount testCryptoEnv "A" .ethereum "abandon" 0)
    (derivedAccount testCryptoEnv "B" .ethereum "abandon" 0)
    { emptyState with accounts := [derivedAccount testCryptoEnv "A" .ethereum "abandon" 0] }
    { emptyState with accounts := [derivedAccount testCryptoEnv "B" .ethereum "abandon" 0] }
    (by rfl) (by rfl)

/- § C7: postcondition of successful creation -/

/-- C7: postcondition of a successful `createAccount` — the returned
account has id `<chain>-<index>`, balance `"0"`, address equal to
publicKey on both chains, and the chain's fixed derivation-path template
instantiated at the index, and exactly this account is appended to the
registry (the ledger untouched). -/
theorem createAccount_postcondition (env : CryptoEnv) (s : ManagerState)
    (name : String) (b : Blockchain) (mnemonic : String) (accountIndex : Nat)
    (a : WalletAccount) (s2 : ManagerState)
    (h : createAccount env s name b mnemonic accountIndex = (.ok a, s2)) :
    a.id = mkId b accountIndex ∧ a.balance = "0" ∧ a.address = a.publicKey ∧
    a.derivationPath = (match b with
      | .ethereum => ethDerivationPath accountIndex
      | .solana => solDerivationPath accountIndex) ∧
    s2.accounts = s.accounts ++ [a] ∧ s2.transactions = s.transactions := by
  obtain ⟨ha, hs⟩ := createAccount_ok_spec _ _ _ _ _ _ _ _ h
  subst ha
  subst hs
  cases b <;> exact ⟨rfl, rfl, rfl, rfl, rfl, rfl⟩

/-- Evaluation witness for `createAccount_postcondition`: a concrete
successful Solana creation at index 0 satisfies the postcondition. -/
theorem createAccount_postcondition_witness :
    (derivedAccount testCryptoEnv "B" .solana "abandon" 0).id = mkId .solana 0 ∧
    (derivedAccount testCryptoEnv "B" .solana "abandon" 0).balance = "0" ∧
    (derivedAccount testCryptoEnv "B" .solana "abandon" 0).address =
      (derivedAccount testCryptoEnv "B" .solana "abandon" 0).publicKey ∧
    (derivedAccount testCryptoEnv "B" .solana "abandon" 0).derivationPath =
      (match Blockchain.solana with
        | .ethereum => ethDerivationPath 0
        | .solana => solDerivationPath 0) ∧
    ({ emptyState with
        accounts := [derivedAccount testCryptoEnv "B" .solana "abandon" 0] } :
      ManagerState).accounts =
        emptyState.accounts ++ [derivedAccount testCryptoEnv "B" .solana "abandon" 0] ∧
    ({ emptyState with
        accounts := [derivedAccount testCryptoEnv "B" .solana "abandon" 0] } :
      ManagerState).transactions = emptyState.transactions :=
  createAccount_postcondition testCryptoEnv emptyState "B" .solana "abandon" 0
    (derivedAccount testCryptoEnv "B" .solana "abandon" 0)
    { emptyState with accounts := [derivedAccount testCryptoEnv "B" .solana "abandon" 0] }
    (by rfl)

end QuantumWallet

namespace QuantumWallet

/- § C2: duplicate prevention -/

/-- Well-formedness of registry ids: every account carries an id generated
by the template literal for its own chain.  Every state reachable through
`createAccount` satisfies this. -/
def WellFormedIds (accounts : List WalletAccount) : Prop :=
  ∀ acc ∈ accounts, ∃ i, acc.id = mkId acc.blockchain i

/-- C2: `createAccount` fails with the duplicate-index error exactly when
an existing account already has id `<chain>-<index>` (regardless of name),
fails with the duplicate-name error exactly when no such id collision
exists but an account on the same chain already has the requested name
(regardless of index) — the two cases reaching the caller as distinct
errors — and on every failure the registry is left unchanged. -/
theorem createAccount_duplicate_iff (env : CryptoEnv) (s : ManagerState)
    (name : String) (blockchain : Blockchain) (mnemonic : String)
    (accountIndex : Nat) (hwf : WellFormedIds s.accounts) :
    ((createAccount env s name blockchain mnemonic accountIndex).1 =
        .error (.duplicateIndex blockchain accountIndex) ↔
      ∃ acc ∈ s.accounts, acc.id = mkId blockchain accountIndex) ∧
    ((createAccount env s name blockchain mnemonic accountIndex).1 =
        .error (.duplicateName name blockchain) ↔
      ((¬ ∃ acc ∈ s.accounts, acc.id = mkId blockchain accountIndex) ∧
        ∃ acc ∈ s.accounts, acc.blockchain = blockchain ∧ acc.name = name)) ∧
    (∀ e, (createAccount env s name blockchain mnemonic accountIndex).1 = .error e →
      (createAccount env s name blockchain mnemonic accountIndex).2 = s) := by
  have hidx : (s.accounts.find? (fun acc =>
      decide (acc.blockchain = blockchain) &&
      decide (acc.id = mkId blockchain accountIndex))).isSome = true ↔
      ∃ acc ∈ s.accounts, acc.id = mkId blockchain accountIndex := by
    rw [List.find?_isSome]
    constructor
    · rintro ⟨acc, hmem, hp⟩
      simp only [Bool.and_eq_true, decide_eq_true_eq] at hp
      exact ⟨acc, hmem, hp.2⟩
    · rintro ⟨acc, hmem, hid⟩
      refine ⟨acc, hmem, ?_⟩
      obtain ⟨j, hj⟩ := hwf acc hmem
      have hb : acc.blockchain = blockchain := mkId_chain_inj (hj.symm.trans hid)
      simp only [Bool.and_eq_true, decide_eq_true_eq]
      exact ⟨hb, hid⟩
  have hname : (s.accounts.find? (fun acc =>
      decide (acc.blockchain = blockchain) && decide (acc.name = name))).isSome = true ↔
      ∃ acc ∈ s.accounts, acc.blockchain = blockchain ∧ acc.name = name := by
    rw [List.find?_isSome]
    simp only [Bool.and_eq_true, decide_eq_true_eq]
  by_cases hI : (s.accounts.find? (fun acc =>
      decide (acc.blockchain = blockchain) &&
      decide (acc.id = mkId blockchain accountIndex))).isSome = true
  · have hres : createAccount env s name blockchain mnemonic accountIndex =
        (.error (.duplicateIndex blockchain accountIndex), s) := by
      simp [createAccount, hI]
    refine ⟨?_, ?_, ?_⟩
    · rw [hres]
      exact iff_of_true rfl (hidx.mp hI)
    · rw [hres]
      constructor
      · intro h
        exact absurd h (by simp)
      · rintro ⟨hno, -⟩
        exact absurd (hidx.mp hI) hno
    · intro e _
      rw [hres]
  · by_cases hN : (s.accounts.find? (fun acc =>
        decide (acc.blockchain = blockchain) && decide (acc.name = name))).isSome = true
    · have hres : createAccount env s name blockchain mnemonic accountIndex =
          (.error (.duplicateName name blockchain), s) := by
        simp [createAccount, hI, hN]
      refine ⟨?_, ?_, ?_⟩
      · rw [hres]
        constructor
        · intro h
          exact absurd h (by simp)
        · intro hdup
          exact absurd (hidx.mpr hdup) hI
      · rw [hres]
        exact iff_of_true rfl ⟨fun hdup => hI (hidx.mpr hdup), hname.mp hN⟩
      · intro e _
        rw [hres]
    · have hnotidx : ¬ ∃ acc ∈ s.accounts, acc.id = mkId blockchain accountIndex :=
        fun hdup => hI (hidx.mpr hdup)
      have hnotname : ¬ ∃ acc ∈ s.accounts, acc.blockchain = blockchain ∧ acc.name = name :=
        fun hdup => hN (hname.mpr hdup)
      refine ⟨?_, ?_, ?_⟩
      · refine iff_of_false ?_ hnotidx
        cases blockchain <;> simp [createAccount, hI, hN] <;> split <;> simp
      · refine iff_of_false ?_ (fun h => hnotname h.2)
        cases blockchain <;> simp [createAccount, hI, hN] <;> split <;> simp
      · intro e
        show (createAccount env s name blockchain mnemonic accountIndex).1 = _ →
          (createAccount env s name blockchain mnemonic accountIndex).2 = s
        cases blockchain <;> simp only [createAccount, hI, hN, if_neg] <;>
          split <;> (try split) <;> intro he <;> first
            | rfl
            | exact absurd he (by simp)

/-- Evaluation witness for `createAccount_duplicate_iff`: with one
ethereum account named `A` at index 0 registered, the claim's
characterization holds concretely. -/
theorem createAccount_duplicate_iff_witness :
    ((createAccount testCryptoEnv
        ⟨[derivedAccount testCryptoEnv "A" .ethereum "abandon" 0], []⟩
        "B" .ethereum "abandon" 0).1 = .error (.duplicateIndex .ethereum 0) ↔
      ∃ acc ∈ [derivedAccount testCryptoEnv "A" .ethereum "abandon" 0],
        acc.id = mkId .ethereum 0) ∧
    ((createAccount testCryptoEnv
        ⟨[derivedAccount testCryptoEnv "A" .ethereum "abandon" 0], []⟩
        "B" .ethereum "abandon" 0).1 = .error (.duplicateName "B" .ethereum) ↔
      ((¬ ∃ acc ∈ [derivedAccount testCryptoEnv "A" .ethereum "abandon" 0],
          acc.id = mkId .ethereum 0) ∧
        ∃ acc ∈ [derivedAccount testCryptoEnv "A" .ethereum "abandon" 0],
          acc.blockchain = .ethereum ∧ acc.name = "B")) ∧
    (∀ e, (createAccount testCryptoEnv
        ⟨[derivedAccount testCryptoEnv "A" .ethereum "abandon" 0], []⟩
        "B" .ethereum "abandon" 0).1 = .error e →
      (createAccount testCryptoEnv
        ⟨[derivedAccount testCryptoEnv "A" .ethereum "abandon" 0], []⟩
        "B" .ethereum "abandon" 0).2 =
        ⟨[derivedAccount testCryptoEnv "A" .ethereum "abandon" 0], []⟩) :=
  createAccount_duplicate_iff testCryptoEnv
    ⟨[derivedAccount testCryptoEnv "A" .ethereum "abandon" 0], []⟩
    "B" .ethereum "abandon" 0
    (by
      intro acc hmem
      rw [List.mem_singleton] at hmem
      subst hmem
      exact ⟨0, rfl⟩)

end QuantumWallet

namespace QuantumWallet

/- § C3: per-chain index density -/

/-- The accounts of one chain, in registry (insertion) order — the same
filter the UI uses to count existing accounts when choosing the next
index. -/
def chainAccounts (s : ManagerState) (b : Blockchain) : List WalletAccount :=
  s.accounts.filter (fun a => decide (a.blockchain = b))

/-- Counterexample to C3 as stated: the registry accepts any
caller-supplied index, so a single `createAccount` call at index 5 on an
empty registry — a state reachable by a sequence of `createAccount`
calls — succeeds and yields one ethereum account whose id set is
`ethereum-5`, not the dense `ethereum-0`. -/
theorem createAccount_nondense_counterexample :
    (createAccount testCryptoEnv emptyState "A" .ethereum "abandon" 5).1 =
      .ok (derivedAccount testCryptoEnv "A" .ethereum "abandon" 5) ∧
    (chainAccounts (createAccount testCryptoEnv emptyState "A" .ethereum "abandon" 5).2
        .ethereum).length = 1 ∧
    (chainAccounts (createAccount testCryptoEnv emptyState "A" .ethereum "abandon" 5).2
        .ethereum).map (fun a => a.id) ≠
      (List.range 1).map (mkId .ethereum) := by
  refine ⟨rfl, rfl, ?_⟩
  decide

/-- Registry states reachable from the empty registry by `createAccount`
calls that follow the UI convention: each call supplies as index the count
of existing accounts on its chain at call time. -/
inductive CountIndexedReachable : ManagerState → Prop
  | empty : CountIndexedReachable emptyState
  | step (s : ManagerState) (env : CryptoEnv) (name mnemonic : String)
      (b : Blockchain) : CountIndexedReachable s →
      CountIndexedReachable
        (createAccount env s name b mnemonic (chainAccounts s b).length).2

/-- Case analysis of the state a `createAccount` call leaves behind:
either unchanged, or with exactly one account appended whose chain and id
are the requested ones. -/
theorem createAccount_state_cases (env : CryptoEnv) (s : ManagerState)
    (name : String) (b : Blockchain) (mnemonic : String) (accountIndex : Nat) :
    (createAccount env s name b mnemonic accountIndex).2 = s ∨
    ∃ a : WalletAccount,
      (createAccount env s name b mnemonic accountIndex).2 =
        { s with accounts := s.accounts ++ [a] } ∧
      a.blockchain = b ∧ a.id = mkId b accountIndex := by
  cases b <;> simp only [createAccount] <;> split
  · exact .inl rfl
  · split
    · exact .inl rfl
    · split
      · exact .inr ⟨_, rfl, rfl, rfl⟩
      · exact .inl rfl
  · exact .inl rfl
  · split
    · exact .inl rfl
    · split
      · exact .inr ⟨_, rfl, rfl, rfl⟩
      · exact .inl rfl

/-- C3 amended: in every registry state reachable by `createAccount`
calls that supply the per-chain account count as index, the ids on each
chain are exactly `<chain>-0 … <chain>-(n-1)` in insertion order, where
`n` is the number of accounts on that chain — indices dense and never
reused. -/
theorem dense_indices_of_counted_calls (s : ManagerState)
    (h : CountIndexedReachable s) : ∀ b : Blockchain,
    (chainAccounts s b).map (fun a => a.id) =
      (List.range (chainAccounts s b).length).map (mkId b) := by
  induction h with
  | empty => intro b; rfl
  | step s env name mnemonic bc hs ih =>
    intro b
    rcases createAccount_state_cases env s name bc mnemonic
        (chainAccounts s bc).length with hc | ⟨a, hc, hab, haid⟩
    · rw [hc]
      exact ih b
    · rw [hc]
      by_cases hbb : bc = b
      · subst hbb
        have hfil : chainAccounts { s with accounts := s.accounts ++ [a] } bc =
            chainAccounts s bc ++ [a] := by
          simp [chainAccounts, List.filter_append, hab]
        rw [hfil]
        simp only [List.map_append, List.length_append, List.length_singleton,
          List.map_cons, List.map_nil, ih bc, haid]
        rw [List.range_succ, List.map_append]
        rfl
      · have hfil : chainAccounts { s with accounts := s.accounts ++ [a] } b =
            chainAccounts s b := by
          simp [chainAccounts, List.filter_append, hab, hbb]
        rw [hfil]
        exact ih b

/-- Evaluation witness for `dense_indices_of_counted_calls`: after two
convention-following creations (one per chain) from the empty registry,
the ethereum ids are exactly `ethereum-0`. -/
theorem dense_indices_of_counted_calls_witness :
    (chainAccounts (createAccount testCryptoEnv
        (createAccount testCryptoEnv emptyState "A" .ethereum "abandon"
          (chainAccounts emptyState .ethereum).length).2
        "B" .solana "abandon"
        (chainAccounts (createAccount testCryptoEnv emptyState "A" .ethereum "abandon"
          (chainAccounts emptyState .ethereum).length).2 .solana).length).2 .ethereum).map
      (fun a => a.id) =
      (List.range ((chainAccounts (createAccount testCryptoEnv
        (createAccount testCryptoEnv emptyState "A" .ethereum "abandon"
          (chainAccounts emptyState .ethereum).length).2
        "B" .solana "abandon"
        (chainAccounts (createAccount testCryptoEnv emptyState "A" .ethereum "abandon"
          (chainAccounts emptyState .ethereum).length).2 .solana).length).2 .ethereum).length)).map
        (mkId .ethereum) :=
  dense_indices_of_counted_calls _
    (CountIndexedReachable.step _ testCryptoEnv "B" "abandon" .solana
      (CountIndexedReachable.step _ testCryptoEnv "A" "abandon" .ethereum
        CountIndexedReachable.empty)) .ethereum

end QuantumWallet

namespace QuantumWallet

/- § C5: chain-agnostic pre-flight validation -/

/-- C5: whenever `toAddress` is empty, `amount` is empty, or the parsed
amount is nonpositive, `sendTransaction` fails with the validation error
and returns the state unchanged — since the conclusion holds for every
network environment and every account (in particular every private key),
the failure precedes any network interaction, any private-key use, and
any ledger append. -/
theorem sendTransaction_validation_error (env : CryptoEnv) (net : NetEnv)
    (s : ManagerState) (fromAccount : WalletAccount) (toAddress amount : String)
    (h : toAddress = "" ∨ amount = "" ∨ parseFloatLeZero amount = true) :
    sendTransaction env net s fromAccount toAddress amount =
      (.error .invalidParams, s) := by
  simp only [sendTransaction, if_pos h]

/-- Evaluation witness for `sendTransaction_validation_error`: a concrete
send of amount `"0"` fails with the validation error and leaves the state
unchanged. -/
theorem sendTransaction_validation_error_witness :
    sendTransaction testCryptoEnv testNetEnv emptyState
      (derivedAccount testCryptoEnv "A" .ethereum "abandon" 0)
      "0x2222222222222222222222222222222222222222" "0" =
      (.error .invalidParams, emptyState) :=
  sendTransaction_validation_error testCryptoEnv testNetEnv emptyState
    (derivedAccount testCryptoEnv "A" .ethereum "abandon" 0)
    "0x2222222222222222222222222222222222222222" "0"
    (Or.inr (Or.inr (by decide)))

/- § C6: EVM address-format validation -/

/-- The spec-side reading of the EVM address pattern: the literal `0x`
followed by exactly forty hex characters. -/
def evmAddressSpec (s : String) : Prop :=
  ∃ t : List Char, s.data = '0' :: 'x' :: t ∧ t.length = 40 ∧
    ∀ c ∈ t, isHexChar c = true

/-- The Ethereum send body never raises the address-format error (the
format check happens strictly before it runs). -/
theorem ethereumSendBody_no_addr_error (env : CryptoEnv) (net : NetEnv)
    (s : ManagerState) (fromAccount : WalletAccount) (toAddress amount : String)
    (t : Transaction) :
    (ethereumSendBody env net s fromAccount toAddress amount t).1 ≠
      .error .invalidEthereumAddressFormat := by
  unfold ethereumSendBody
  repeat' split
  all_goals simp [recordFailure, finishSend]

/-- C6: for an EVM-chain sender, the format check accepts `toAddress`
exactly when it is `0x` followed by forty hex characters; a failing
address makes `sendTransaction` return the address-format error — naming
the expected format — with the state unchanged (and, the conclusion
holding for every network environment and private key, before any network
call or key use), while a passing address can never produce that error. -/
theorem sendTransaction_eth_address_validation (env : CryptoEnv)
    (net : NetEnv) (s : ManagerState) (fromAccount : WalletAccount)
    (toAddress amount : String)
    (hchain : fromAccount.blockchain = .ethereum)
    (hv : ¬(toAddress = "" ∨ amount = "" ∨ parseFloatLeZero amount = true)) :
    (isValidEthereumAddress toAddress = true ↔ evmAddressSpec toAddress) ∧
    (isValidEthereumAddress toAddress = false →
      sendTransaction env net s fromAccount toAddress amount =
        (.error .invalidEthereumAddressFormat, s)) ∧
    (isValidEthereumAddress toAddress = true →
      (sendTransaction env net s fromAccount toAddress amount).1 ≠
        .error .invalidEthereumAddressFormat) := by
  refine ⟨?_, ?_, ?_⟩
  · unfold isValidEthereumAddress evmAddressSpec
    constructor
    · intro h
      split at h
      · rename_i rest heq
        simp only [Bool.and_eq_true, beq_iff_eq, List.all_eq_true] at h
        exact ⟨rest, heq, h.1, h.2⟩
      · simp at h
    · rintro ⟨t, hdata, hlen, hhex⟩
      simp only [hdata, Bool.and_eq_true, beq_iff_eq, List.all_eq_true]
      exact ⟨hlen, hhex⟩
  · intro hbad
    simp only [sendTransaction, if_neg hv, hchain, hbad]
    simp
  · intro hgood
    simp only [sendTransaction, if_neg hv, hchain, hgood, if_true]
    exact ethereumSendBody_no_addr_error env net s fromAccount toAddress amount _

/-- Evaluation witness for `sendTransaction_eth_address_validation`: a
39-hex-character recipient is rejected with the address-format error and
an unchanged state, while a 40-hex-character recipient never produces that
error. -/
theorem sendTransaction_eth_address_validation_witness :
    (sendTransaction testCryptoEnv testNetEnv emptyState
      (derivedAccount testCryptoEnv "A" .ethereum "abandon" 0)
      "0x222222222222222222222222222222222222222" "1" =
      (.error .invalidEthereumAddressFormat, emptyState)) ∧
    ((sendTransaction testCryptoEnv testNetEnv emptyState
      (derivedAccount testCryptoEnv "A" .ethereum "abandon" 0)
      "0x2222222222222222222222222222222222222222" "1").1 ≠
      .error .invalidEthereumAddressFormat) :=
  ⟨(sendTransaction_eth_address_validation testCryptoEnv testNetEnv emptyState
      (derivedAccount testCryptoEnv "A" .ethereum "abandon" 0)
      "0x222222222222222222222222222222222222222" "1" rfl
      (by decide)).2.1 (by decide),
   (sendTransaction_eth_address_validation testCryptoEnv testNetEnv emptyState
      (derivedAccount testCryptoEnv "A" .ethereum "abandon" 0)
      "0x2222222222222222222222222222222222222222" "1" rfl
      (by decide)).2.2 (by decide)⟩

end QuantumWallet

namespace QuantumWallet

/- § C4: insufficient balance -/

/-- C4: on either chain, when the queried on-chain balance is strictly
below the requested amount converted to the chain's smallest unit, the
send fails with the insufficient-balance error (surfaced on the Solana
path wrapped in the keypair-failure message its inner catch produces) and
the attempt's transaction is appended to the ledger with status `failed`
in the very state the error leaves behind. -/
theorem sendTransaction_insufficient_balance (env : CryptoEnv) (net : NetEnv)
    (s : ManagerState) (fromAccount : WalletAccount)
    (toAddress amount : String)
    (hv : ¬(toAddress = "" ∨ amount = "" ∨ parseFloatLeZero amount = true)) :
    (∀ (balance : Nat) (wei : Int),
      fromAccount.blockchain = .ethereum →
      isValidEthereumAddress toAddress = true →
      env.ethKeyOk fromAccount.privateKey = true →
      net.ethGetBalance fromAccount.address = some balance →
      parseEther amount = some wei →
      (balance : Int) < wei →
      sendTransaction env net s fromAccount toAddress amount =
        (.error .insufficientBalance,
          { s with transactions := s.transactions ++
              [{ pendingTx net.now fromAccount toAddress amount with
                  status := .failed }] })) ∧
    (∀ (balance : Nat) (q : JsNumber),
      fromAccount.blockchain = .solana →
      env.solParse toAddress = true →
      env.solParse fromAccount.address = true →
      (bufferFromHex fromAccount.privateKey).length = 32 →
      env.solPubkeyOf (bufferFromHex fromAccount.privateKey) = fromAccount.address →
      net.solGetBalance fromAccount.address = some balance →
      jsParseFloat amount = some q →
      JsNumber.natLt balance q.timesLamports = true →
      sendTransaction env net s fromAccount toAddress amount =
        (.error (.solanaKeypairFailure .insufficientBalance),
          { s with transactions := s.transactions ++
              [{ pendingTx net.now fromAccount toAddress amount with
                  status := .failed }] })) := by
  constructor
  · intro balance wei hchain hvalid hkey hbal hwei hlt
    simp only [sendTransaction, if_neg hv, hchain, hvalid, if_true]
    simp only [ethereumSendBody, hkey, if_true, hbal, hwei, if_pos hlt,
      recordFailure]
  · intro balance q hchain hto hfrom h32 hpub hbal hq hlt
    simp only [sendTransaction, if_neg hv, hchain, hto, if_true]
    simp only [solanaSendBody, hfrom, if_true, if_pos h32, if_pos hpub, hbal,
      hq, Option.map_some', hlt, if_true, recordFailure]

/-- Evaluation witness for `sendTransaction_insufficient_balance`: with a
5-wei / 5-lamport balance, sending `"1"` ETH or SOL fails with the
insufficient-balance error and records the failed transaction, on each
chain. -/
theorem sendTransaction_insufficient_balance_witness :
    (sendTransaction testCryptoEnv testNetEnv emptyState
      (derivedAccount testCryptoEnv "A" .ethereum "abandon" 0)
      "0x2222222222222222222222222222222222222222" "1" =
      (.error .insufficientBalance,
        { emptyState with transactions :=
            emptyState.transactions ++
              [{ pendingTx testNetEnv.now
                  (derivedAccount testCryptoEnv "A" .ethereum "abandon" 0)
                  "0x2222222222222222222222222222222222222222" "1" with
                  status := .failed }] })) ∧
    (sendTransaction testCryptoEnv testNetEnv emptyState
      (derivedAccount testCryptoEnv "B" .solana "abandon" 0)
      "So1anaRecipient11111111111111111" "1" =
      (.error (.solanaKeypairFailure .insufficientBalance),
        { emptyState with transactions :=
            emptyState.transactions ++
              [{ pendingTx testNetEnv.now
                  (derivedAccount testCryptoEnv "B" .solana "abandon" 0)
                  "So1anaRecipient11111111111111111" "1" with
                  status := .failed }] })) :=
  ⟨(sendTransaction_insufficient_balance testCryptoEnv testNetEnv emptyState
      (derivedAccount testCryptoEnv "A" .ethereum "abandon" 0)
      "0x2222222222222222222222222222222222222222" "1" (by decide)).1
      5 ((10 : Int) ^ 18) rfl (by decide) rfl rfl (by decide) (by decide),
   (sendTransaction_insufficient_balance testCryptoEnv testNetEnv emptyState
      (derivedAccount testCryptoEnv "B" .solana "abandon" 0)
      "So1anaRecipient11111111111111111" "1" (by decide)).2
      5 ⟨1, 0⟩ rfl rfl rfl (by decide) rfl rfl (by decide) (by decide)⟩

end QuantumWallet

namespace QuantumWallet

/- § C8: Solana private-key round trip and defensive integrity check -/

/-- A corrupted account record: its stored address does not match the
public key its stored private-key bytes regenerate. -/
def corruptSolAccount : WalletAccount :=
  { id := "solana-0", name := "C", blockchain := .solana,
    address := "WrongAddress1111111111111111111", publicKey := "WrongAddress1111111111111111111",
    privateKey := String.mk (List.replicate 64 '0'), balance := "0",
    mnemonic := "abandon", derivationPath := solDerivationPath 0 }

/-- C8: for every Solana account a successful `createAccount` produces,
regenerating the keypair from the stored hex private-key bytes reproduces
the stored address exactly; and the send path performs the same check
defensively — when the regenerated public key differs from the account's
address it fails (with the key-integrity error, wrapped by the inner
catch) recording the failed attempt, before any balance query or
submission. -/
theorem solana_key_roundtrip (env : CryptoEnv) :
    (∀ (s : ManagerState) (name mnemonic : String) (accountIndex : Nat)
      (a : WalletAccount) (s2 : ManagerState),
      createAccount env s name .solana mnemonic accountIndex = (.ok a, s2) →
      env.solPubkeyOf (bufferFromHex a.privateKey) = a.address) ∧
    (∀ (net : NetEnv) (s : ManagerState) (fromAccount : WalletAccount)
      (toAddress amount : String),
      ¬(toAddress = "" ∨ amount = "" ∨ parseFloatLeZero amount = true) →
      fromAccount.blockchain = .solana →
      env.solParse toAddress = true →
      env.solParse fromAccount.address = true →
      (bufferFromHex fromAccount.privateKey).length = 32 →
      env.solPubkeyOf (bufferFromHex fromAccount.privateKey) ≠ fromAccount.address →
      sendTransaction env net s fromAccount toAddress amount =
        (.error (.solanaKeypairFailure .keyIntegrity),
          { s with transactions := s.transactions ++
              [{ pendingTx net.now fromAccount toAddress amount with
                  status := .failed }] })) := by
  constructor
  · intro s name mnemonic accountIndex a s2 h
    obtain ⟨ha, -⟩ := createAccount_ok_spec _ _ _ _ _ _ _ _ h
    subst ha
    simp only [derivedAccount, derivedPrivateKeyHex, derivedAddress,
      bufferFromHex_hexOfBytes]
  · intro net s fromAccount toAddress amount hv hchain hto hfrom h32 hpub
    simp only [sendTransaction, if_neg hv, hchain, hto, if_true]
    simp only [solanaSendBody, hfrom, if_true, if_pos h32, if_neg hpub,
      recordFailure]

/-- Evaluation witness for `solana_key_roundtrip`: a concrete created
Solana account round-trips to its stored address, and a concrete corrupted
account makes the send path fail with the wrapped key-integrity error,
recording the failed attempt. -/
theorem solana_key_roundtrip_witness :
    (testCryptoEnv.solPubkeyOf (bufferFromHex
        (derivedAccount testCryptoEnv "B" .solana "abandon" 0).privateKey) =
      (derivedAccount testCryptoEnv "B" .solana "abandon" 0).address) ∧
    (sendTransaction testCryptoEnv testNetEnv emptyState corruptSolAccount
      "So1anaRecipient11111111111111111" "1" =
      (.error (.solanaKeypairFailure .keyIntegrity),
        { emptyState with transactions :=
            emptyState.transactions ++
              [{ pendingTx testNetEnv.now corruptSolAccount
                  "So1anaRecipient11111111111111111" "1" with
                  status := .failed }] })) :=
  ⟨(solana_key_roundtrip testCryptoEnv).1 emptyState "B" "abandon" 0
      (derivedAccount testCryptoEnv "B" .solana "abandon" 0)
      { emptyState with
          accounts := [derivedAccount testCryptoEnv "B" .solana "abandon" 0] }
      (by rfl),
   (solana_key_roundtrip testCryptoEnv).2 testNetEnv emptyState
      corruptSolAccount "So1anaRecipient11111111111111111" "1"
      (by decide) rfl rfl rfl (by decide) (by decide)⟩

/- § C9: balance oracle fail-safe -/

/-- A network environment where every query fails. -/
def failNetEnv : NetEnv :=
  { ethGetBalance := fun _ => none, ethSend := fun _ _ => none,
    ethWait := fun _ => none, solGetBalance := fun _ => none,
    solLatestBlockhash := none, solSend := fun _ _ _ => none,
    solConfirm := fun _ => none, now := 0 }

/-- A network environment reporting a 100-lamport Solana balance. -/
def lowBalNetEnv : NetEnv :=
  { testNetEnv with solGetBalance := fun _ => some 100 }

/-- Plain positional decimal numeral: digits and at most a decimal point —
the reading of the claim's phrase `decimal string` (exponential output
such as `1e-7` fails it). -/
def isPositionalDecimal (s : String) : Bool :=
  decide (s ≠ "") && s.data.all (fun c => isDigitChar c || c == '.')

/-- Counterexample to C9 as stated: for a queried balance of 100 lamports
the Solana conversion `(100 / LAMPORTS_PER_SOL).toString()` yields the
exponential string `1e-7` — the JS runtime prints values below `1e-6` in
exponential notation — so the success case does not return the divided
balance as a decimal string. -/
theorem getBalance_exponential_counterexample :
    getBalance testCryptoEnv lowBalNetEnv
      (derivedAccount testCryptoEnv "B" .solana "abandon" 0) = "1e-7" ∧
    isPositionalDecimal "1e-7" = false ∧
    getBalance testCryptoEnv lowBalNetEnv
      (derivedAccount testCryptoEnv "B" .solana "abandon" 0) ≠ "0.0000001" := by
  refine ⟨rfl, by decide, by decide⟩

/-- C9 amended: `getBalance` never throws (it is a total function into
strings): on any failure — a failed network query, or a Solana address
that does not parse — it returns `"0"`; on success it returns the
smallest-unit balance divided by the chain's fixed divisor (`10 ^ 18` for
ethereum, `10 ^ 9` for solana) rendered as the runtime renders the
number — positional decimal notation, except that positive SOL values
below `1e-6` surface in exponential notation.  The Solana case is stated
for balances below `10 ^ 15` lamports, the range on which
`formatSolBalance` provably reproduces the double computation. -/
theorem getBalance_fail_safe (env : CryptoEnv) (net : NetEnv)
    (account : WalletAccount) :
    (account.blockchain = .ethereum →
      (net.ethGetBalance account.address = none →
        getBalance env net account = "0") ∧
      (∀ wei, net.ethGetBalance account.address = some wei →
        getBalance env net account = formatEther wei)) ∧
    (account.blockchain = .solana →
      (env.solParse account.address = false →
        getBalance env net account = "0") ∧
      (net.solGetBalance account.address = none →
        getBalance env net account = "0") ∧
      (∀ lamports, lamports < 10 ^ 15 →
        env.solParse account.address = true →
        net.solGetBalance account.address = some lamports →
        getBalance env net account = formatSolBalance lamports)) := by
  constructor
  · intro hchain
    constructor
    · intro hq
      simp [getBalance, hchain, hq]
    · intro wei hq
      simp [getBalance, hchain, hq]
  · intro hchain
    refine ⟨?_, ?_, ?_⟩
    · intro hp
      simp [getBalance, hchain, hp]
    · intro hq
      simp [getBalance, hchain, hq]
    · intro lamports _ hp hq
      simp [getBalance, hchain, hp, hq]

/-- Evaluation witness for `getBalance_fail_safe`: concrete successful and
failing balance queries on both chains, exercising both the exponential
(5 lamports) and the positional (1.5 SOL) Solana renderings. -/
theorem getBalance_fail_safe_witness :
    (getBalance testCryptoEnv testNetEnv
      (derivedAccount testCryptoEnv "A" .ethereum "abandon" 0) = formatEther 5) ∧
    (getBalance testCryptoEnv failNetEnv
      (derivedAccount testCryptoEnv "A" .ethereum "abandon" 0) = "0") ∧
    (getBalance testCryptoEnv testNetEnv
      (derivedAccount testCryptoEnv "B" .solana "abandon" 0) = formatSolBalance 5) ∧
    (getBalance testCryptoEnv
      { testNetEnv with solGetBalance := fun _ => some 1500000000 }
      (derivedAccount testCryptoEnv "B" .solana "abandon" 0) =
      formatSolBalance 1500000000) ∧
    (getBalance testCryptoEnv failNetEnv
      (derivedAccount testCryptoEnv "B" .solana "abandon" 0) = "0") :=
  ⟨((getBalance_fail_safe testCryptoEnv testNetEnv
      (derivedAccount testCryptoEnv "A" .ethereum "abandon" 0)).1 rfl).2 5 rfl,
   ((getBalance_fail_safe testCryptoEnv failNetEnv
      (derivedAccount testCryptoEnv "A" .ethereum "abandon" 0)).1 rfl).1 rfl,
   ((getBalance_fail_safe testCryptoEnv testNetEnv
      (derivedAccount testCryptoEnv "B" .solana "abandon" 0)).2 rfl).2.2 5
      (by decide) rfl rfl,
   ((getBalance_fail_safe testCryptoEnv
      { testNetEnv with solGetBalance := fun _ => some 1500000000 }
      (derivedAccount testCryptoEnv "B" .solana "abandon" 0)).2 rfl).2.2
      1500000000 (by decide) rfl rfl,
   ((getBalance_fail_safe testCryptoEnv failNetEnv
      (derivedAccount testCryptoEnv "B" .solana "abandon" 0)).2 rfl).2.1 rfl⟩

/- § C10: ledger queries -/

/-- A sample registered account for the ledger-query counterexample. -/
def demoAccount : WalletAccount :=
  derivedAccount testCryptoEnv "A" .ethereum "abandon" 0

/-- A sample ledger entry originating from `demoAccount`. -/
def demoTx : Transaction :=
  pendingTx 42 demoAccount "0x3333333333333333333333333333333333333333" "1"

/-- A sample manager state with one account and one transaction. -/
def demoState : ManagerState := ⟨[demoAccount], [demoTx]⟩

/-- Counterexample to C10 as stated: the empty string is an accountId
matching no registered account, yet `getTransactions` — whose TS guard
`if (accountId)` treats the empty string like an absent argument — returns
the full ledger rather than the empty list. -/
theorem getTransactions_empty_id_counterexample :
    (∀ acc ∈ demoState.accounts, acc.id ≠ "") ∧
    getTransactions demoState (some "") = demoState.transactions ∧
    demoState.transactions ≠ [] := by
  refine ⟨?_, rfl, ?_⟩ <;> decide

/-- C10 amended: `getTransactions` with a nonempty unregistered accountId
returns the empty list; with a registered accountId it returns exactly the
transactions whose `from` equals that account's address; with no argument
— or with the empty-string accountId, which the falsy-string guard treats
identically — it returns the full ledger. -/
theorem getTransactions_query_spec (s : ManagerState) (aid : String) :
    (aid ≠ "" → getAccount s aid = none → getTransactions s (some aid) = []) ∧
    (∀ account, aid ≠ "" → getAccount s aid = some account →
      getTransactions s (some aid) =
        s.transactions.filter (fun tx => decide (tx.fromAddr = account.address))) ∧
    (getTransactions s none = s.transactions) ∧
    (getTransactions s (some "") = s.transactions) := by
  refine ⟨?_, ?_, rfl, ?_⟩
  · intro hne hnone
    simp [getTransactions, hne, hnone]
  · intro account hne hsome
    simp [getTransactions, hne, hsome]
  · simp [getTransactions]

/-- Evaluation witness for `getTransactions_query_spec`: concrete queries
against the sample state — an unregistered id yields `[]`, the registered
id yields the matching transactions, and the no-argument query yields the
full ledger. -/
theorem getTransactions_query_spec_witness :
    (getTransactions demoState (some "solana-7") = []) ∧
    (getTransactions demoState (some "ethereum-0") =
      demoState.transactions.filter
        (fun tx => decide (tx.fromAddr = demoAccount.address))) ∧
    (getTransactions demoState none = demoState.transactions) :=
  ⟨(getTransactions_query_spec demoState "solana-7").1 (by decide) (by decide),
   (getTransactions_query_spec demoState "ethereum-0").2.1 demoAccount
      (by decide) (by decide),
   (getTransactions_query_spec demoState "anything").2.2.1⟩

end QuantumWallet
